/-
Verification of the native window-integration and session-lifecycle core of
the StickyNotes desktop widget (src/StickyNote.py), as a shallow embedding.

Geometry follows Qt's integer-rectangle conventions: a QRect stores x, y,
width, height and exposes right() = x + w - 1 and bottom() = y + h - 1.
Win32 extended window styles are unbounded bitmasks (Python integers).
The persisted state file is a JSON document merged over a default record.
-/
import Mathlib

/-- A Qt `QRect`: integer position plus integer size. -/
structure Rect where
  x : Int
  y : Int
  w : Int
  h : Int
deriving DecidableEq

/-- Qt `QRect::right()` is `x + w - 1` (Qt's historical off-by-one convention). -/
def Rect.qright (r : Rect) : Int := r.x + r.w - 1

/-- Qt `QRect::bottom()` is `y + h - 1`. -/
def Rect.qbottom (r : Rect) : Int := r.y + r.h - 1

/-- Qt `QRect::isNull()`: both width and height are zero. -/
def Rect.isNull (r : Rect) : Bool := r.w == 0 && r.h == 0

/-- Qt `QRect::contains(QPoint)` (non-proper containment): the stored corner
coordinates are put in order when the size is negative, then the point is
tested against the closed intervals `[x, x+w-1]` and `[y, y+h-1]`. -/
def Rect.containsPoint (r : Rect) (px py : Int) : Bool :=
  let l := if r.x + r.w - 1 < r.x - 1 then r.x + r.w - 1 else r.x
  let rr := if r.x + r.w - 1 < r.x - 1 then r.x else r.x + r.w - 1
  if px < l || px > rr then false
  else
    let t := if r.y + r.h - 1 < r.y - 1 then r.y + r.h - 1 else r.y
    let b := if r.y + r.h - 1 < r.y - 1 then r.y else r.y + r.h - 1
    if py < t || py > b then false else true

/-- Qt `QRect::intersects`: null rectangles never intersect; otherwise each
axis is normalised (a negative extent collapses to the left coordinate) and
the closed integer intervals must overlap. -/
def Rect.intersects (a b : Rect) : Bool :=
  if a.isNull || b.isNull then false
  else
    let r1 := if a.w < 0 then a.x else a.x + a.w - 1
    let r2 := if b.w < 0 then b.x else b.x + b.w - 1
    if a.x > r2 || b.x > r1 then false
    else
      let b1 := if a.h < 0 then a.y else a.y + a.h - 1
      let b2 := if b.h < 0 then b.y else b.y + b.h - 1
      if a.y > b2 || b.y > b1 then false else true

/-- A monitor as Qt reports it: full geometry (used by `screenAt`) and the
available work-area geometry (used for clamping). -/
structure Screen where
  geom : Rect
  avail : Rect
deriving DecidableEq

/-- Qt `QGuiApplication.screenAt(point)`: the first screen whose full geometry
contains the point, if any. -/
def screenAt (screens : List Screen) (px py : Int) : Option Screen :=
  screens.find? (fun s => s.geom.containsPoint px py)

/-- Model of `Sticky._rect_on_any_screen`: does the rectangle intersect any screen's
`availableGeometry()`? -/
def rect_on_any_screen (r : Rect) (screens : List Screen) : Bool :=
  screens.any (fun s => s.avail.intersects r)

/-- Model of `Sticky._apply_initial_geometry_safe`: keep the saved geometry when it is
visible on some screen; otherwise fall back to a 350x120 rectangle offset
(80,80) from the primary (first) screen's work-area origin, or from
`QRect(0,0,800,600)` when there is no screen.  (The Python code also writes
the fallback back into the saved state; the resulting window geometry is the
value modelled here.) -/
def apply_initial_geometry_safe (saved : Rect) (screens : List Screen) : Rect :=
  if rect_on_any_screen saved screens then saved
  else
    let ar : Rect := match screens.head? with
      | some primary => primary.avail
      | none => ⟨0, 0, 800, 600⟩
    ⟨ar.x + 80, ar.y + 80, 350, 120⟩

/-- The drag-clamping step of `Sticky.mouseMoveEvent`: `new_pos` is the
computed top-left, `(w, h)` the window size.  If no screen's geometry
contains the point the position is used unchanged; otherwise the four
corrections are applied in source order.  Note that all four tests read
`wr`, the rectangle built from the ORIGINAL `new_pos`, while `setX`/`setY`
update only the position variable. -/
def mouse_move_clamp (nx ny w h : Int) (screens : List Screen) : Int × Int :=
  match screenAt screens nx ny with
  | none => (nx, ny)
  | some s =>
    let sr := s.avail
    let x1 := if nx + w - 1 > sr.qright then sr.qright - w else nx
    let y1 := if ny + h - 1 > sr.qbottom then sr.qbottom - h else ny
    let x2 := if nx < sr.x then sr.x else x1
    let y2 := if ny < sr.y then sr.y else y1
    (x2, y2)

/-- Model of `Sticky._apply_on_screen`: after a programmatic resize, move the window
back inside the work-area of the screen under its top-left corner (no-op
when no screen contains that point). -/
def apply_on_screen (g : Rect) (screens : List Screen) : Rect :=
  match screenAt screens g.x g.y with
  | none => g
  | some s =>
    let sr := s.avail
    let nx := min (max sr.x g.x) (sr.qright - g.w)
    let ny := min (max sr.y g.y) (sr.qbottom - g.h)
    ⟨nx, ny, g.w, g.h⟩

/-- The `setGeometry` step of `Sticky._resize_by`: grow/shrink by the delta,
with the width floored at 200 and the height at 80, keeping the top-left. -/
def resize_step (g : Rect) (dw dh : Int) : Rect :=
  ⟨g.x, g.y, max 200 (g.w + dw), max 80 (g.h + dh)⟩

/-- Model of `Sticky._resize_by`: the floored resize followed by `_apply_on_screen`
(`_save_geometry` only persists the result). -/
def resize_by (g : Rect) (dw dh : Int) (screens : List Screen) : Rect :=
  apply_on_screen (resize_step g dw dh) screens

/-- A top-level OS window as seen by `EnumWindows`: handle, visibility, and
its window text (the title; a window whose text query reports length 0 has
title `""`). -/
structure Win where
  hwnd : Nat
  visible : Bool
  title : String
deriving DecidableEq

/-- Model of `_enum_windows_titles`: the `(hwnd, title)` pairs of the visible windows
whose `GetWindowTextLengthW` is non-zero (the `if length:` guard skips
windows with empty text). -/
def enum_windows_titles (ws : List Win) : List (Nat × String) :=
  (ws.filter (fun w => w.visible && w.title.length != 0)).map (fun w => (w.hwnd, w.title))

/-- The handles `close_existing_instance_by_title` posts `WM_CLOSE` to:
every enumerated window whose title is exactly `title`. -/
def posted_close_messages (ws : List Win) (title : String) : List Nat :=
  ((enum_windows_titles ws).filter (fun p => p.2 == title)).map (fun p => p.1)

/-- Model of `close_existing_instance_by_title(title, wait_ms)`: `ws` is the initial
enumeration, `polls` the successive re-enumerations the bounded wait loop
would observe (`wait_ms / 50` of them at most).  The function posts
`WM_CLOSE` to each exact-title match, returns `False` at once when there is
no match, and otherwise returns `True`; the wait loop only sleeps and never
changes the result. -/
def close_existing_instance_by_title
    (ws : List Win) (polls : List (List Win)) (title : String) : Bool :=
  let found := (enum_windows_titles ws).any (fun p => p.2 == title)
  if !found then false
  else true

/-- The number of 50ms sleeps the wait loop performs: one per leading poll
snapshot in which a window with the exact title is still enumerated. -/
def count_polls : List (List Win) → String → Nat
  | [], _ => 0
  | snap :: rest, title =>
    if (enum_windows_titles snap).any (fun p => p.2 == title) then 1 + count_polls rest title
    else 0

/-- Sleeps performed by `close_existing_instance_by_title`: zero when the
initial enumeration has no match (the function returns before the loop). -/
def evict_wait_iterations (ws : List Win) (polls : List (List Win)) (title : String) : Nat :=
  if (enum_windows_titles ws).any (fun p => p.2 == title) then count_polls polls title
  else 0

/-- The constant `APP_NAME`, the exact window title used for eviction. -/
def APP_NAME : String := "ActiveSticky"

/-- A scalar JSON value.  The persisted-state schema is a flat record of
strings, booleans, and numbers; float literals such as `0.85` are modelled
as exact rationals `jrat num den`. -/
inductive JVal where
  | jnull : JVal
  | jbool : Bool → JVal
  | jint : Int → JVal
  | jrat : Int → Nat → JVal
  | jstr : String → JVal
deriving DecidableEq

/-- What `STATE_PATH` holds when `load_state` runs:
* `missing`  — `read_text` raises (no file);
* `malformed` — `json.loads` raises (not valid JSON);
* `topNonObject` — valid JSON whose top level is not an object (a list,
  number, string, ...), so the `{**DEFAULT_STATE, **j}` merge raises
  `TypeError`;
* `obj kvs` — a JSON object, given as its key/value pairs in document
  order (for duplicate keys `json.loads` keeps the last, which is also the
  lookup convention of `dictGet` below). -/
inductive FileContent where
  | missing : FileContent
  | malformed : FileContent
  | topNonObject : FileContent
  | obj : List (String × JVal) → FileContent
deriving DecidableEq

/-- The `DEFAULT_STATE` record from the source, with `0.85` and `13.0` as exact
rationals. -/
def DEFAULT_STATE : List (String × JVal) :=
  [("text", .jstr "Active task: (Ctrl+Alt+T to edit)"),
   ("x", .jint 80), ("y", .jint 80), ("w", .jint 350), ("h", .jint 120),
   ("click_through", .jbool false),
   ("opacity", .jrat 85 100),
   ("font_pt", .jrat 13 1),
   ("theme", .jstr "dark"),
   ("auto_hide_timer", .jint 0),
   ("word_wrap", .jbool true),
   ("font_family", .jstr "Segoe UI")]

/-- Python dict lookup on an association list: the LAST binding of a key
wins (matching `dict` construction from a sequence of insertions). -/
def dictGet (kvs : List (String × JVal)) (k : String) : Option JVal :=
  match kvs with
  | [] => none
  | p :: rest =>
    match dictGet rest k with
    | some v => some v
    | none => if p.1 == k then some p.2 else none

/-- One Python dict insertion: replace the binding in place when the key is
present, otherwise append a new binding. -/
def dictInsert (kvs : List (String × JVal)) (k : String) (v : JVal) : List (String × JVal) :=
  if kvs.any (fun p => p.1 == k) then kvs.map (fun p => if p.1 == k then (k, v) else p)
  else kvs ++ [(k, v)]

/-- Python `{**a, **b}`: start from `a` and insert every pair of `b` in order. -/
def pyDictMerge (a b : List (String × JVal)) : List (String × JVal) :=
  b.foldl (fun acc p => dictInsert acc p.1 p.2) a

/-- Model of `load_state`: `{**DEFAULT_STATE, **json.loads(...)}` under a
`try/except Exception` that returns `DEFAULT_STATE.copy()` on any raise. -/
def load_state : FileContent → List (String × JVal)
  | .missing => DEFAULT_STATE
  | .malformed => DEFAULT_STATE
  | .topNonObject => DEFAULT_STATE
  | .obj kvs => pyDictMerge DEFAULT_STATE kvs

/-- Model of `save_state(d)`: `json.dumps` of a flat dict of scalars followed by
`json.loads` is the identity on its key/value pairs, so the file written by
a successful save is the object itself. -/
def save_state (d : List (String × JVal)) : FileContent := .obj d

/-- Model of `delete_state`: unlink the file when it exists; idempotent. -/
def delete_state : FileContent → FileContent
  | .missing => .missing
  | _ => .missing

/-- The startup fragment of `main` that decides the fate of the state file:
`if close_existing_instance_by_title(APP_NAME): delete_state()`. -/
def main_startup_state_file
    (ws : List Win) (polls : List (List Win)) (fs : FileContent) : FileContent :=
  if close_existing_instance_by_title ws polls APP_NAME then delete_state fs
  else fs

/-- Extended window-style flag bits (single bits of the Win32 bitmask). -/
def WS_EX_LAYERED : Nat := 0x00080000

def WS_EX_TRANSPARENT : Nat := 0x00000020

def WS_EX_TOOLWINDOW : Nat := 0x00000080

def WS_EX_NOACTIVATE : Nat := 0x08000000

/-- Python's `s & ~m` on (non-negative) unbounded integers clears exactly
the bits of `m`; on `Nat` this is `s XOR (s AND m)`. -/
def pyClearBits (s m : Nat) : Nat := s ^^^ (s &&& m)

/-- Model of `Sticky._apply_click_through`: read the extended style, unconditionally
set LAYERED and TOOLWINDOW, set TRANSPARENT and NOACTIVATE when
click-through is on and clear them when it is off, and write the result
back.  Modelled as the style-bitmask transformer. -/
def apply_click_through (ex_style : Nat) (click_through : Bool) : Nat :=
  let s := ex_style ||| (WS_EX_LAYERED ||| WS_EX_TOOLWINDOW)
  if click_through then s ||| (WS_EX_TRANSPARENT ||| WS_EX_NOACTIVATE)
  else pyClearBits s (WS_EX_TRANSPARENT ||| WS_EX_NOACTIVATE)

/-- Modifier and virtual-key constants used by the hotkey table. -/
def MOD_ALT : Nat := 0x0001

def MOD_CONTROL : Nat := 0x0002

def MOD_SHIFT : Nat := 0x0004

def VK_LEFT : Nat := 0x25

def VK_RIGHT : Nat := 0x27

def VK_UP : Nat := 0x26

def VK_DOWN : Nat := 0x28

/-- The fixed table of `register_hotkeys`: `(id, modifiers, virtual key)`
for the nine bindings, in registration order (`ord('T') = 84`,
`ord('M') = 77`, space = `0x20`). -/
def hotkeys : List (Nat × Nat × Nat) :=
  [(1, MOD_CONTROL ||| MOD_ALT, 84),
   (2, MOD_CONTROL ||| MOD_ALT, 0x20),
   (3, MOD_CONTROL ||| MOD_ALT, VK_LEFT),
   (4, MOD_CONTROL ||| MOD_ALT, VK_RIGHT),
   (5, MOD_CONTROL ||| MOD_ALT, VK_UP),
   (6, MOD_CONTROL ||| MOD_ALT, VK_DOWN),
   (7, MOD_CONTROL ||| MOD_ALT, 77),
   (8, MOD_CONTROL ||| MOD_SHIFT ||| MOD_ALT, VK_UP),
   (9, MOD_CONTROL ||| MOD_SHIFT ||| MOD_ALT, VK_DOWN)]

/-- The registration loop of `register_hotkeys` over a binding list:
`osAccept id modifiers vk` is the outcome of `user32.RegisterHotKey`.
Returns, in loop order, the ids whose registration succeeded and the ids
whose failure was logged by the `print` in the loop body. -/
def register_loop (osAccept : Nat → Nat → Nat → Bool) :
    List (Nat × Nat × Nat) → List Nat × List Nat
  | [] => ([], [])
  | hk :: rest =>
    let r := register_loop osAccept rest
    if osAccept hk.1 hk.2.1 hk.2.2 then (hk.1 :: r.1, r.2)
    else (r.1, hk.1 :: r.2)

/-- Model of `register_hotkeys(hwnd)`: run the loop over the fixed table.  The
function itself raises nothing and aborts nothing: every binding is
attempted whatever the earlier outcomes were. -/
def register_hotkeys (osAccept : Nat → Nat → Nat → Bool) : List Nat × List Nat :=
  register_loop osAccept hotkeys

/-- Python's `str.isspace` character class (the characters `str.strip`
removes). -/
def pyIsSpace (c : Char) : Bool :=
  c == ' ' || c == '\t' || c == '\n' || c == '\r' || c == '\x0b' || c == '\x0c' ||
  c == '\x1c' || c == '\x1d' || c == '\x1e' || c == '\x1f' || c == '\x85' ||
  c == '\u00A0' || c == '\u1680' ||
  c == '\u2000' || c == '\u2001' || c == '\u2002' || c == '\u2003' || c == '\u2004' ||
  c == '\u2005' || c == '\u2006' || c == '\u2007' || c == '\u2008' || c == '\u2009' ||
  c == '\u200A' || c == '\u2028' || c == '\u2029' || c == '\u202F' || c == '\u205F' ||
  c == '\u3000'

/-- Python `str.strip()` on a character list: drop whitespace from both ends. -/
def py_strip_chars (l : List Char) : List Char :=
  ((l.dropWhile pyIsSpace).reverse.dropWhile pyIsSpace).reverse

/-- Python `str.strip()`. -/
def py_strip (s : String) : String := String.mk (py_strip_chars s.data)

/-- The text produced by `Sticky.commit_edit` from the editor's plain text:
`self.editor.toPlainText().strip() or "Active task"` (an empty stripped
string is falsy, so the placeholder is used).  This value is both displayed
on the label and persisted by the following `_save_state()`. -/
def commit_text (editorText : String) : String :=
  let t := py_strip editorText
  if t = "" then "Active task" else t

/-! ## Helper lemmas -/

lemma apply_on_screen_w (g : Rect) (screens : List Screen) :
    (apply_on_screen g screens).w = g.w := by
  unfold apply_on_screen
  rcases h : screenAt screens g.x g.y with _ | s <;> simp [h]

lemma apply_on_screen_h (g : Rect) (screens : List Screen) :
    (apply_on_screen g screens).h = g.h := by
  unfold apply_on_screen
  rcases h : screenAt screens g.x g.y with _ | s <;> simp [h]

/-! ## Claim theorems -/

/-- C10: every resize-by-delta keeps the window at least 200 wide and at
least 80 tall, for every starting geometry and every (positive or negative)
delta, and the `setGeometry` call of the resize step leaves the top-left
unchanged. -/
theorem C10_resize_floor :
    ∀ (g : Rect) (dw dh : Int) (screens : List Screen),
      200 ≤ (resize_by g dw dh screens).w ∧ 80 ≤ (resize_by g dw dh screens).h ∧
      (resize_step g dw dh).x = g.x ∧ (resize_step g dw dh).y = g.y := by
  intro g dw dh screens
  refine ⟨?_, ?_, rfl, rfl⟩
  · rw [resize_by, apply_on_screen_w]
    exact le_max_left _ _
  · rw [resize_by, apply_on_screen_h]
    exact le_max_left _ _

/-- C6: a saved rectangle that intersects no monitor's work-area is replaced
by the 350x120 rectangle anchored (80,80) from the primary (first) monitor's
work-area origin; in particular `(-5000,-5000,350,120)` against a single
monitor with work-area `(0,0,1920,1080)` yields `(80,80,350,120)`. -/
theorem C6_offscreen_fallback :
    (∀ (saved : Rect) (s : Screen) (rest : List Screen),
        rect_on_any_screen saved (s :: rest) = false →
        apply_initial_geometry_safe saved (s :: rest) =
          ⟨s.avail.x + 80, s.avail.y + 80, 350, 120⟩) ∧
    apply_initial_geometry_safe ⟨-5000, -5000, 350, 120⟩
        [⟨⟨0,0,1920,1080⟩, ⟨0,0,1920,1080⟩⟩] = ⟨80, 80, 350, 120⟩ := by
  constructor
  · intro saved s rest hvis
    simp [apply_initial_geometry_safe, hvis]
  · decide

/-- C6 witness: the general fallback theorem applied to the concrete
off-screen scenario of the claim. -/
theorem C6_offscreen_fallback_witness :
    apply_initial_geometry_safe ⟨-5000, -5000, 350, 120⟩
        [⟨⟨0,0,1920,1080⟩, ⟨0,0,1920,1080⟩⟩] = ⟨80, 80, 350, 120⟩ := by
  have h := C6_offscreen_fallback.1 ⟨-5000, -5000, 350, 120⟩
      ⟨⟨0,0,1920,1080⟩, ⟨0,0,1920,1080⟩⟩ [] (by decide)
  simpa using h

/-- C5 counterexample: the claim's concrete drag scenario.  Dragging a
350x120 window to computed top-left (1900,1000) on a monitor with work-area
(0,0,1920,1080) does NOT give top-left (1570,960): because Qt's
`right()`/`bottom()` are `x+w-1`/`y+h-1`, the code's `sr.right() - width`
lands at (1569,959), one pixel inside the work-area edges. -/
theorem C5_drag_clamp_counterexample :
    mouse_move_clamp 1900 1000 350 120 [⟨⟨0,0,1920,1080⟩, ⟨0,0,1920,1080⟩⟩] ≠ (1570, 960) := by
  decide

/-- C5 amended: when the screen under the computed position is found and the
window is strictly smaller than its work-area, the clamped top-left keeps
the whole window inside the work-area (left/top at or after the origin,
right/bottom at or before the work-area's last pixel); the concrete
350x120-at-(1900,1000) drag yields (1569,959), right/bottom edges one pixel
inside the work-area boundary. -/
theorem C5_drag_clamp :
    (∀ (nx ny w h : Int) (screens : List Screen) (s : Screen),
        screenAt screens nx ny = some s →
        0 < w → w < s.avail.w → 0 < h → h < s.avail.h →
        s.avail.x ≤ (mouse_move_clamp nx ny w h screens).1 ∧
        (mouse_move_clamp nx ny w h screens).1 + w - 1 ≤ s.avail.qright ∧
        s.avail.y ≤ (mouse_move_clamp nx ny w h screens).2 ∧
        (mouse_move_clamp nx ny w h screens).2 + h - 1 ≤ s.avail.qbottom) ∧
    mouse_move_clamp 1900 1000 350 120 [⟨⟨0,0,1920,1080⟩, ⟨0,0,1920,1080⟩⟩] = (1569, 959) := by
  constructor
  · intro nx ny w h screens s hs hw hws hh hhs
    simp only [mouse_move_clamp, hs, Rect.qright, Rect.qbottom]
    split_ifs <;> constructor <;> try constructor <;> try constructor
    all_goals omega
  · decide

/-- C5 witness: the amended clamp theorem applied to the claim's concrete
scenario. -/
theorem C5_drag_clamp_witness :
    (0:Int) ≤ (mouse_move_clamp 1900 1000 350 120
        [⟨⟨0,0,1920,1080⟩, ⟨0,0,1920,1080⟩⟩]).1 ∧
    (mouse_move_clamp 1900 1000 350 120
        [⟨⟨0,0,1920,1080⟩, ⟨0,0,1920,1080⟩⟩]).1 + 350 - 1 ≤
      (Rect.qright ⟨0,0,1920,1080⟩) ∧
    (0:Int) ≤ (mouse_move_clamp 1900 1000 350 120
        [⟨⟨0,0,1920,1080⟩, ⟨0,0,1920,1080⟩⟩]).2 ∧
    (mouse_move_clamp 1900 1000 350 120
        [⟨⟨0,0,1920,1080⟩, ⟨0,0,1920,1080⟩⟩]).2 + 120 - 1 ≤
      (Rect.qbottom ⟨0,0,1920,1080⟩) := by
  have h := C5_drag_clamp.1 1900 1000 350 120
      [⟨⟨0,0,1920,1080⟩, ⟨0,0,1920,1080⟩⟩] ⟨⟨0,0,1920,1080⟩, ⟨0,0,1920,1080⟩⟩
      (by decide) (by decide) (by decide) (by decide) (by decide)
  simpa using h

/-- C4 counterexample: starting from an extended style that already has the
TRANSPARENT bit set, enabling then disabling click-through does not leave
"the original bits with LAYERED and TOOLWINDOW set": TRANSPARENT has been
cleared by the disable step. -/
theorem C4_toggle_counterexample :
    apply_click_through (apply_click_through WS_EX_TRANSPARENT true) false ≠
      WS_EX_TRANSPARENT ||| (WS_EX_LAYERED ||| WS_EX_TOOLWINDOW) := by
  decide

lemma testBit_pow_eq (k i : Nat) : (2 ^ k).testBit i = decide (k = i) :=
  Nat.testBit_two_pow

/-- C4 amended: for every initial extended-style bitmask, enabling then
disabling click-through leaves the original bits with LAYERED and
TOOLWINDOW set and TRANSPARENT and NOACTIVATE cleared. -/
theorem C4_toggle :
    ∀ ex_style : Nat,
      apply_click_through (apply_click_through ex_style true) false =
        pyClearBits ex_style (WS_EX_TRANSPARENT ||| WS_EX_NOACTIVATE) |||
          (WS_EX_LAYERED ||| WS_EX_TOOLWINDOW) := by
  intro s
  have hL : WS_EX_LAYERED = 2 ^ 19 := by decide
  have hT : WS_EX_TRANSPARENT = 2 ^ 5 := by decide
  have hW : WS_EX_TOOLWINDOW = 2 ^ 7 := by decide
  have hN : WS_EX_NOACTIVATE = 2 ^ 27 := by decide
  simp only [apply_click_through, pyClearBits, hL, hT, hW, hN, if_true, if_false,
    Bool.false_eq_true, ite_true, ite_false]
  apply Nat.eq_of_testBit_eq
  intro i
  simp only [Nat.testBit_lor, Nat.testBit_xor, Nat.testBit_land, testBit_pow_eq]
  by_cases h5 : (5 : Nat) = i <;> by_cases h7 : (7 : Nat) = i <;>
    by_cases h19 : (19 : Nat) = i <;> by_cases h27 : (27 : Nat) = i <;>
    simp_all <;> omega

lemma string_length_zero {s : String} (h : s.length = 0) : s = "" := by
  cases s with
  | mk l =>
    cases l with
    | nil => rfl
    | cons c cs => simp [String.length] at h

lemma close_eq_found (ws : List Win) (polls : List (List Win)) (title : String) :
    close_existing_instance_by_title ws polls title =
      (enum_windows_titles ws).any (fun p => p.2 == title) := by
  unfold close_existing_instance_by_title
  rcases h : (enum_windows_titles ws).any (fun p => p.2 == title) <;> simp [h]

lemma close_true_iff (ws : List Win) (polls : List (List Win)) (title : String)
    (hne : title ≠ "") :
    close_existing_instance_by_title ws polls title = true ↔
      ∃ w ∈ ws, w.visible = true ∧ w.title = title := by
  rw [close_eq_found]
  simp only [enum_windows_titles, List.any_eq_true, List.mem_map, List.mem_filter,
    Bool.and_eq_true, bne_iff_ne, ne_eq, beq_iff_eq]
  constructor
  · rintro ⟨p, ⟨w, ⟨hmem, hvis, _⟩, hfw⟩, hpt⟩
    exact ⟨w, hmem, hvis, by rw [← hfw] at hpt; exact hpt⟩
  · rintro ⟨w, hmem, hvis, htitle⟩
    refine ⟨(w.hwnd, w.title), ⟨w, ⟨hmem, hvis, ?_⟩, rfl⟩, htitle⟩
    intro hzero
    apply hne
    rw [← htitle]
    exact string_length_zero hzero

/-- C2 counterexample: with the empty title, a visible top-level window
whose title is exactly string-equal to it exists, yet
`close_existing_instance_by_title` returns `False` (the enumeration skips
windows whose `GetWindowTextLengthW` is zero). -/
theorem C2_evict_counterexample :
    (∃ w ∈ ([⟨1, true, ""⟩] : List Win), w.visible = true ∧ w.title = "") ∧
    close_existing_instance_by_title [⟨1, true, ""⟩] [] "" = false := by
  exact ⟨⟨⟨1, true, ""⟩, by decide, rfl, rfl⟩, by decide⟩

/-- C2 amended: for every non-empty title, eviction returns `True` exactly
when some visible top-level window's title is exactly string-equal to the
title at the initial enumeration (matching is exact equality, never
substring, and the result does not depend on what the bounded poll loop
observes), and when it returns `False` it does so immediately: the wait
loop performs zero sleeps. -/
theorem C2_evict_found :
    ∀ (ws : List Win) (polls : List (List Win)) (title : String), title ≠ "" →
      ((close_existing_instance_by_title ws polls title = true ↔
          ∃ w ∈ ws, w.visible = true ∧ w.title = title) ∧
       (close_existing_instance_by_title ws polls title = false →
          evict_wait_iterations ws polls title = 0)) := by
  intro ws polls title hne
  refine ⟨close_true_iff ws polls title hne, ?_⟩
  intro hfalse
  rw [close_eq_found] at hfalse
  simp [evict_wait_iterations, hfalse]

/-- C2 witness: the eviction characterisation applied to a concrete window
list; a window whose title merely contains the searched title as a
substring is not a match, so eviction returns `False`. -/
theorem C2_evict_found_witness :
    close_existing_instance_by_title
      [⟨7, true, "ActiveSticky Settings"⟩, ⟨8, false, "ActiveSticky"⟩] [] "ActiveSticky"
      = false := by
  have h := (C2_evict_found
      [⟨7, true, "ActiveSticky Settings"⟩, ⟨8, false, "ActiveSticky"⟩] [] "ActiveSticky"
      (by decide)).1
  rcases hc : close_existing_instance_by_title
      [⟨7, true, "ActiveSticky Settings"⟩, ⟨8, false, "ActiveSticky"⟩] [] "ActiveSticky" with _ | _
  · rfl
  · exfalso
    rcases h.mp hc with ⟨w, hmem, hvis, htitle⟩
    simp only [List.mem_cons, List.mem_singleton] at hmem
    rcases hmem with rfl | rfl | h'
    · exact absurd htitle (by decide)
    · exact absurd hvis (by decide)
    · exact absurd h' (List.not_mem_nil _)

lemma delete_state_eq_missing (fs : FileContent) : delete_state fs = FileContent.missing := by
  cases fs <;> rfl

/-- C3: at startup the persisted state file is deleted exactly when a prior
instance existed, i.e. when some visible top-level window is titled exactly
`APP_NAME` at the initial enumeration (which is when
`close_existing_instance_by_title` reports `True`); otherwise the file is
left untouched for the subsequent load. -/
theorem C3_state_deleted_iff_prior_instance :
    ∀ (ws : List Win) (polls : List (List Win)) (fs : FileContent),
      ((∃ w ∈ ws, w.visible = true ∧ w.title = APP_NAME) →
        main_startup_state_file ws polls fs = FileContent.missing) ∧
      ((¬ ∃ w ∈ ws, w.visible = true ∧ w.title = APP_NAME) →
        main_startup_state_file ws polls fs = fs) := by
  intro ws polls fs
  have hiff := close_true_iff ws polls APP_NAME (by decide)
  constructor
  · intro hex
    rw [main_startup_state_file, if_pos (hiff.mpr hex)]
    exact delete_state_eq_missing fs
  · intro hnex
    rw [main_startup_state_file, if_neg ?_]
    intro hc
    exact hnex (hiff.mp hc)

/-- C3 witness: with a visible prior window the file is wiped; with no
windows at all it is untouched. -/
theorem C3_state_deleted_witness :
    main_startup_state_file [⟨1, true, "ActiveSticky"⟩] [] (.obj [("x", .jint 5)])
      = FileContent.missing ∧
    main_startup_state_file [] [] (.obj [("x", .jint 5)]) = .obj [("x", .jint 5)] :=
  ⟨(C3_state_deleted_iff_prior_instance _ _ _).1
      ⟨⟨1, true, "ActiveSticky"⟩, by decide, rfl, rfl⟩,
   (C3_state_deleted_iff_prior_instance _ _ _).2 (by decide)⟩

lemma register_loop_spec (osAccept : Nat → Nat → Nat → Bool) :
    ∀ l : List (Nat × Nat × Nat),
      (register_loop osAccept l).1 =
        (l.filter (fun hk => osAccept hk.1 hk.2.1 hk.2.2)).map (fun hk => hk.1) ∧
      (register_loop osAccept l).2 =
        (l.filter (fun hk => !osAccept hk.1 hk.2.1 hk.2.2)).map (fun hk => hk.1) := by
  intro l
  induction l with
  | nil => exact ⟨rfl, rfl⟩
  | cons hk rest ih =>
    simp only [register_loop, List.filter_cons]
    rcases h : osAccept hk.1 hk.2.1 hk.2.2 <;>
      simp [h, ih.1, ih.2]

lemma register_loop_length (osAccept : Nat → Nat → Nat → Bool) :
    ∀ l : List (Nat × Nat × Nat),
      (register_loop osAccept l).1.length + (register_loop osAccept l).2.length = l.length := by
  intro l
  induction l with
  | nil => rfl
  | cons hk rest ih =>
    simp only [register_loop]
    rcases h : osAccept hk.1 hk.2.1 hk.2.2 <;> simp [h] <;> omega

/-- C8: whatever subset of the nine fixed bindings the OS rejects, the
registration loop attempts all nine (successes plus reported failures
number nine), the reported (logged) ids are exactly the failing ones in
table order, and every other binding is still registered; the loop is a
total function — it raises nothing and never aborts startup. -/
theorem C8_register_all :
    ∀ osAccept : Nat → Nat → Nat → Bool,
      (register_hotkeys osAccept).2 =
        (hotkeys.filter (fun hk => !osAccept hk.1 hk.2.1 hk.2.2)).map (fun hk => hk.1) ∧
      (register_hotkeys osAccept).1 =
        (hotkeys.filter (fun hk => osAccept hk.1 hk.2.1 hk.2.2)).map (fun hk => hk.1) ∧
      (register_hotkeys osAccept).1.length + (register_hotkeys osAccept).2.length = 9 := by
  intro osAccept
  exact ⟨(register_loop_spec osAccept hotkeys).2, (register_loop_spec osAccept hotkeys).1,
    register_loop_length osAccept hotkeys⟩

lemma dropWhile_head_false (p : Char → Bool) :
    ∀ (l : List Char) (x : Char) (xs : List Char), l.dropWhile p = x :: xs → p x = false := by
  intro l
  induction l with
  | nil => intro x xs h; simp [List.dropWhile] at h
  | cons a rest ih =>
    intro x xs h
    rcases hpa : p a with _ | _ <;> rw [List.dropWhile_cons] at h <;> simp [hpa] at h
    · exact h.1 ▸ hpa
    · exact ih x xs h

lemma py_strip_chars_all_space {l : List Char} (h : ∀ c ∈ l, pyIsSpace c = true) :
    py_strip_chars l = [] := by
  unfold py_strip_chars
  rw [List.dropWhile_eq_nil_iff.mpr h]
  simp

lemma py_strip_chars_has_nonspace {l : List Char} (h : py_strip_chars l ≠ []) :
    ∃ c ∈ py_strip_chars l, pyIsSpace c = false := by
  unfold py_strip_chars at *
  rcases h2 : ((l.dropWhile pyIsSpace).reverse.dropWhile pyIsSpace) with _ | ⟨x, xs⟩
  · rw [h2] at h; simp at h
  · exact ⟨x, by simp [h2], dropWhile_head_false _ _ _ _ h2⟩

/-- C9: committing an edit whose editor text is empty or whitespace-only
yields the placeholder `"Active task"`; and for every editor text the
committed (displayed and persisted) text is neither empty nor
whitespace-only. -/
theorem C9_commit_nonblank :
    ∀ s : String,
      ((∀ c ∈ s.data, pyIsSpace c = true) → commit_text s = "Active task") ∧
      commit_text s ≠ "" ∧
      (∃ c ∈ (commit_text s).data, pyIsSpace c = false) := by
  intro s
  refine ⟨?_, ?_, ?_⟩
  · intro hall
    simp [commit_text, py_strip, py_strip_chars_all_space hall]
  · by_cases ht : py_strip s = "" <;> simp [commit_text, ht]
  · by_cases ht : py_strip s = ""
    · have hc : commit_text s = "Active task" := by simp [commit_text, ht]
      rw [hc]
      decide
    · have hc : commit_text s = py_strip s := by simp [commit_text, ht]
      rw [hc]
      have hne : py_strip_chars s.data ≠ [] := by
        intro hnil
        apply ht
        unfold py_strip
        rw [hnil]
      obtain ⟨c, hmem, hcs⟩ := py_strip_chars_has_nonspace hne
      exact ⟨c, by unfold py_strip; simpa using hmem, hcs⟩

/-- C9 witness: a whitespace-only editor text commits as the placeholder. -/
theorem C9_commit_nonblank_witness :
    commit_text " \t  " = "Active task" :=
  (C9_commit_nonblank " \t  ").1 (by decide)

lemma dictGet_append (a b : List (String × JVal)) (q : String) :
    dictGet (a ++ b) q = (dictGet b q).or (dictGet a q) := by
  induction a with
  | nil => cases h : dictGet b q <;> simp [dictGet, h]
  | cons p rest ih =>
    simp only [List.cons_append, dictGet, List.append_eq]
    rw [ih]
    cases h : dictGet b q <;> cases h2 : dictGet rest q <;> simp [Option.or]

lemma dictGet_eq_none_of_not_any {kvs : List (String × JVal)} {k : String}
    (h : kvs.any (fun p => p.1 == k) = false) : dictGet kvs k = none := by
  induction kvs with
  | nil => rfl
  | cons p rest ih =>
    simp only [List.any_cons, Bool.or_eq_false_iff] at h
    simp only [dictGet]
    rw [ih h.2]
    simp [h.1]

lemma dictGet_map_replace (k : String) (v : JVal) (q : String) :
    ∀ kvs : List (String × JVal),
      dictGet (kvs.map (fun p => if p.1 == k then (k, v) else p)) q =
        if q = k ∧ kvs.any (fun p => p.1 == k) = true then some v else dictGet kvs q := by
  intro kvs
  induction kvs with
  | nil => simp [dictGet]
  | cons p rest ih =>
    simp only [List.map_cons, List.any_cons, dictGet]
    rw [ih]
    by_cases hq : q = k
    · by_cases hrest : rest.any (fun p => p.1 == k) = true
      · simp [hq, hrest]
      · have hrest' : rest.any (fun p => p.1 == k) = false := by
          cases h' : rest.any (fun p => p.1 == k)
          · rfl
          · exact absurd h' hrest
        have hnone : dictGet rest k = none := dictGet_eq_none_of_not_any hrest'
        by_cases hp : p.1 = k
        · simp [hq, hrest, hnone, hp]
        · simp [hq, hrest, hnone, hp]
    · by_cases hp : p.1 = k
      · have hkq : (k == q) = false := by
          simp only [beq_eq_false_iff_ne, ne_eq]
          exact fun hkq => hq hkq.symm
        have hpq : (p.1 == q) = false := by rw [hp]; exact hkq
        cases h2 : dictGet rest q <;> simp [hq, hp, hkq, hpq]
      · cases h2 : dictGet rest q <;> simp [hq, hp]

lemma dictGet_insert (kvs : List (String × JVal)) (k : String) (v : JVal) (q : String) :
    dictGet (dictInsert kvs k v) q = if q = k then some v else dictGet kvs q := by
  unfold dictInsert
  by_cases hp : kvs.any (fun p => p.1 == k) = true
  · rw [if_pos hp, dictGet_map_replace]
    by_cases hq : q = k <;> simp [hq, hp]
  · rw [if_neg hp, dictGet_append]
    by_cases hq : q = k
    · have hp' : kvs.any (fun p => p.1 == k) = false := by
        cases h' : kvs.any (fun p => p.1 == k)
        · rfl
        · exact absurd h' hp
      have hqnone : dictGet kvs k = none := dictGet_eq_none_of_not_any hp'
      simp [dictGet, hq, hqnone]
    · have hkq : (k == q) = false := by
        simp only [beq_eq_false_iff_ne, ne_eq]
        exact fun hkq => hq hkq.symm
      simp [dictGet, hkq, hq, Option.or]

lemma dictGet_merge (a b : List (String × JVal)) (q : String) :
    dictGet (pyDictMerge a b) q = (dictGet b q).or (dictGet a q) := by
  induction b generalizing a with
  | nil => cases h : dictGet a q <;> simp [pyDictMerge, dictGet, h]
  | cons p rest ih =>
    simp only [pyDictMerge, List.foldl_cons] at *
    rw [ih (dictInsert a p.1 p.2)]
    simp only [dictGet, dictGet_insert]
    cases h2 : dictGet rest q
    · by_cases hq : q = p.1
      · have hpq : (p.1 == q) = true := by simp [hq]
        simp [hq, hpq, Option.or]
      · have hpq : (p.1 == q) = false := by
          simp only [beq_eq_false_iff_ne, ne_eq]
          exact fun hc => hq hc.symm
        simp [hq, hpq, Option.or]
    · simp [Option.or]

/-- C1 counterexample: a state file holding the well-formed JSON object
`{"x": "foo"}` has a wrong-typed field, yet `load_state` does not return
the default record unchanged — the string is merged over the default `x`. -/
theorem C1_load_counterexample :
    load_state (.obj [("x", .jstr "foo")]) ≠ DEFAULT_STATE := by
  decide

/-- C1 amended: `load_state` never raises to the caller; on a missing file,
malformed (unparsable) content, or a document whose top level is not a JSON
object it returns the default record unchanged; but a well-formed JSON
object is merged over the defaults field by field even when its fields are
wrong-typed — no type checking occurs at load. -/
theorem C1_load_default_on_failure :
    load_state .missing = DEFAULT_STATE ∧
    load_state .malformed = DEFAULT_STATE ∧
    load_state .topNonObject = DEFAULT_STATE ∧
    ∀ (kvs : List (String × JVal)) (k : String),
      dictGet (load_state (.obj kvs)) k = (dictGet kvs k).or (dictGet DEFAULT_STATE k) :=
  ⟨rfl, rfl, rfl, fun kvs k => dictGet_merge DEFAULT_STATE kvs k⟩

/-- C7: `load()` after `save(S)` yields a record that agrees with `S` on
every field `S` sets and falls back to the fixed default record on every
field absent from `S` — the merge is left-biased toward the loaded value. -/
theorem C7_load_after_save :
    ∀ (S : List (String × JVal)) (k : String),
      (∀ v : JVal, dictGet S k = some v → dictGet (load_state (save_state S)) k = some v) ∧
      (dictGet S k = none → dictGet (load_state (save_state S)) k = dictGet DEFAULT_STATE k) := by
  intro S k
  have h : dictGet (load_state (save_state S)) k = (dictGet S k).or (dictGet DEFAULT_STATE k) :=
    dictGet_merge DEFAULT_STATE S k
  constructor
  · intro v hv
    rw [h, hv]
    rfl
  · intro hv
    rw [h, hv]
    rfl

/-- C7 witness: the round-trip theorem applied at a concrete saved record
that sets `x` and omits every other field. -/
theorem C7_load_after_save_witness :
    dictGet (load_state (save_state [("x", JVal.jint 42)])) "x" = some (JVal.jint 42) ∧
    dictGet (load_state (save_state [("x", JVal.jint 42)])) "opacity" =
      dictGet DEFAULT_STATE "opacity" :=
  ⟨(C7_load_after_save [("x", JVal.jint 42)] "x").1 (JVal.jint 42) (by decide),
   (C7_load_after_save [("x", JVal.jint 42)] "opacity").2 (by decide)⟩
